import Mathlib

/-!
Verification of the foxhole-quartermaster orchestration core.

Shallow embedding of the Python sources:
  discord-bot-python/src/ai/agent.py    (strip_wrapping_code_blocks, process_with_ai)
  discord-bot-python/src/ai/gemini.py   (FUNCTION_DECLARATIONS, execute_function_call)
  discord-bot-python/src/mcp/client.py  (McpClient.call_tool)
  mcp-server/src/server.py              (McpServer.tool, McpServer.call_tool)

Python dicts are modelled as association lists with Python-dict update
semantics (update in place keeps insertion order, new keys are appended).
Dynamic JSON-ish Python values are modelled by the JVal inductive.
Asynchronous effects are modelled by passing the behaviour of the external
collaborators (the Gemini chat session, the HTTP transport) as function
arguments; exceptions are modelled with Except.
-/

/-- Python-dict membership test (`k in d`). -/
def hasKey {α : Type} (m : List (String × α)) (k : String) : Bool :=
  m.any (fun p => p.1 == k)

/-- Python-dict read (`d.get(k)` as an Option). Association lists built by
`dictSet` never contain duplicate keys, the first binding wins. -/
def dictGet {α : Type} : List (String × α) → String → Option α
  | [], _ => none
  | p :: m, k => if p.1 == k then some p.2 else dictGet m k

/-- Python-dict write `d[k] = v`: updates the binding in place when the key
exists (keeping insertion order), otherwise appends the new binding. -/
def dictSet {α : Type} (m : List (String × α)) (k : String) (v : α) : List (String × α) :=
  if hasKey m k then m.map (fun p => if p.1 == k then (k, v) else p)
  else m ++ [(k, v)]

/-- Characters removed by Python `str.strip()` (the ASCII-range whitespace
characters; other Unicode space characters do not occur in this code base). -/
def pyWhitespace (c : Char) : Bool :=
  c == ' ' || c == '\t' || c == '\n' || c == '\r' || c == '\x0b' || c == '\x0c'

/-- Python `str.strip()` on the character list of a string. -/
def pyStripList (l : List Char) : List Char :=
  ((l.dropWhile pyWhitespace).reverse.dropWhile pyWhitespace).reverse

/-- The backtick character. -/
def btick : Char := Char.ofNat 96

/-- Python regex `\w` (ASCII range; the language tags this code meets are
ASCII identifiers). -/
def wordChar (c : Char) : Bool := c.isAlphanum || c == '_'

/-- End of the pattern from agent.py: the closing fence followed by `$`
(end of input, or a lone final newline; the matched input is always the
result of `str.strip()` so the newline case never fires, it is kept for
fidelity to the regex). -/
def fenceTail (l : List Char) : Bool :=
  l == [btick, btick, btick] || l == [btick, btick, btick, '\n']

/-- The lazy group `(.*?)` of the agent.py regex followed by the closing
fence: tries the shortest group first, exactly as the backtracking engine
does, and returns the captured group. -/
def fenceGroup : List Char → Option (List Char)
  | [] => none
  | c :: rest =>
    if fenceTail (c :: rest) then some []
    else Option.map (fun g => c :: g) (fenceGroup rest)

/-- The `\n?` of the agent.py regex: prefers consuming a newline, and
backtracks to the empty alternative when the rest of the pattern fails. -/
def fenceAfterNl (l : List Char) : Option (List Char) :=
  match l with
  | '\n' :: rest => Option.orElse (fenceGroup rest) (fun _ => fenceGroup ('\n' :: rest))
  | _ => fenceGroup l

/-- The greedy `\w*` of the agent.py regex: consumes the longest word-char
run first and backtracks one character at a time. -/
def fenceWord : List Char → Option (List Char)
  | [] => fenceAfterNl []
  | c :: rest =>
    if wordChar c then Option.orElse (fenceWord rest) (fun _ => fenceAfterNl (c :: rest))
    else fenceAfterNl (c :: rest)

/-- `re.match(r"^三backticks\w*\n?(.*?)三backticks$", l, re.DOTALL)` from
agent.py, returning group 1 on success. -/
def fenceMatch (l : List Char) : Option (List Char) :=
  match l with
  | c1 :: c2 :: c3 :: rest =>
    if c1 == btick && c2 == btick && c3 == btick then fenceWord rest else none
  | _ => none

/-- agent.py `strip_wrapping_code_blocks`: strip a triple-backtick code
block that wraps the entire (stripped) response; otherwise return the text
unchanged. -/
def strip_wrapping_code_blocks (text : String) : String :=
  match fenceMatch (pyStripList text.data) with
  | some g => String.mk (pyStripList g)
  | none => text

/-- Dynamically-typed Python/JSON values as they flow through the MCP
transport (Python has separate int and float; floats do not occur in the
code paths modelled here). -/
inductive JVal where
  | null
  | bool (b : Bool)
  | int (n : Int)
  | str (s : String)
  | arr (xs : List JVal)
  | obj (fields : List (String × JVal))

/-- Whether a dynamic value is a Python str. -/
def JVal.isStr : JVal → Bool
  | .str _ => true
  | _ => false

/-- One hex digit, lowercase, as Python json uses in escapes. -/
def hexDigit (n : Nat) : Char :=
  if n < 10 then Char.ofNat (48 + n) else Char.ofNat (87 + n)

/-- Four lowercase hex digits. -/
def hex4 (n : Nat) : String :=
  String.mk [hexDigit (n / 4096 % 16), hexDigit (n / 256 % 16), hexDigit (n / 16 % 16), hexDigit (n % 16)]

/-- Python json.dumps escaping of one character (default ensure_ascii). -/
def escapeJsonChar (c : Char) : String :=
  if c == '"' then "\\\""
  else if c == '\\' then "\\\\"
  else if c == '\n' then "\\n"
  else if c == '\t' then "\\t"
  else if c == '\r' then "\\r"
  else if c == '\x08' then "\\b"
  else if c == '\x0c' then "\\f"
  else if c.toNat < 32 then "\\u" ++ hex4 c.toNat
  else if c.toNat < 127 then String.mk [c]
  else if c.toNat < 65536 then "\\u" ++ hex4 c.toNat
  else "\\u" ++ hex4 (55296 + (c.toNat - 65536) / 1024) ++ "\\u" ++ hex4 (56320 + (c.toNat - 65536) % 1024)

/-- Python json.dumps of a string. -/
def dumpJsonString (s : String) : String :=
  "\"" ++ String.join (s.data.map escapeJsonChar) ++ "\""

mutual

/-- Python `json.dumps` with its default separators. -/
def dumps : JVal → String
  | .null => "null"
  | .bool true => "true"
  | .bool false => "false"
  | .int n => toString n
  | .str s => dumpJsonString s
  | .arr xs => "[" ++ String.intercalate ", " (dumpsElems xs) ++ "]"
  | .obj fs => "\x7b" ++ String.intercalate ", " (dumpsFields fs) ++ "\x7d"

/-- json.dumps of the elements of an array. -/
def dumpsElems : List JVal → List String
  | [] => []
  | x :: xs => dumps x :: dumpsElems xs

/-- json.dumps of the fields of an object. -/
def dumpsFields : List (String × JVal) → List String
  | [] => []
  | (k, v) :: fs => (dumpJsonString k ++ ": " ++ dumps v) :: dumpsFields fs

end

/-- Outcome of the `httpx` POST performed by `McpClient.call_tool`
(client.py): a status code together with the result of `response.json()`
(which itself may raise on a malformed body), a timeout, or a request
error. -/
inductive HttpResult where
  | success (statusCode : Nat) (body : Except String JVal)
  | timeout
  | requestError (msg : String)

/-- client.py `McpClient.call_tool`: 401 and non-200 statuses, timeouts and
request errors are converted to error dicts; a body-parse failure escapes
as an exception (`Except.error`). -/
def McpClient.call_tool : HttpResult → Except String JVal
  | .success 401 _ => Except.ok (JVal.obj [("error", JVal.str "Unauthorized")])
  | .success code body =>
    if code == 200 then body
    else Except.ok (JVal.obj [("error", JVal.str ("Server error: " ++ toString code))])
  | .timeout => Except.ok (JVal.obj [("error", JVal.str "Request timeout")])
  | .requestError m => Except.ok (JVal.obj [("error", JVal.str m)])

/-- Python `v.get(k, default)`: raises AttributeError when `v` is not a
dict (the exception message is modelled abstractly). -/
def pyGet (v : JVal) (k : String) (default : JVal) : Except String JVal :=
  match v with
  | .obj fs => Except.ok ((dictGet fs k).getD default)
  | _ => Except.error "AttributeError"

/-- gemini.py `execute_function_call`: calls the MCP client, extracts the
text content of a well-shaped MCP response, falls back to json.dumps of the
whole result, and converts any exception into a json error string. The
returned value is dynamic, as in Python (the annotation promises str). -/
def execute_function_call (transport : HttpResult) (name : String) (_args : List (String × JVal)) : JVal :=
  let body : Except String JVal := do
    let result ← McpClient.call_tool transport
    let content ← pyGet result "content" (JVal.arr [])
    match content with
    | .arr (first :: _) => do
      let t ← pyGet first "type" JVal.null
      match t with
      | .str "text" => pyGet first "text" (JVal.str (dumps result))
      | _ => pure (JVal.str (dumps result))
    | _ => pure (JVal.str (dumps result))
  match body with
  | .ok v => v
  | .error e =>
    JVal.str (dumps (JVal.obj [("error", JVal.str ("Failed to execute " ++ name ++ ": " ++ e))]))

/-- One function call requested by the model (gemini `part.function_call`,
with `dict(call.args)` taken as an association list). -/
structure FunctionCall where
  name : String
  args : List (String × JVal)

/-- One part of a gemini candidate content: either text or a (truthy)
function call. -/
inductive GenPart where
  | text (t : String)
  | functionCall (fc : FunctionCall)

/-- One candidate of a gemini response. -/
structure Candidate where
  parts : List GenPart

/-- A gemini response: its candidates, plus the value of the library
accessor `response.text` (computed by the genai library, outside this code
base, hence carried as data). -/
structure ModelResponse where
  candidates : List Candidate
  text : String

/-- The function-call extraction at the top of the agent.py loop body:
all function_call parts of all candidates, in order. -/
def responseFunctionCalls (r : ModelResponse) : List FunctionCall :=
  (r.candidates.map (fun c =>
    c.parts.filterMap (fun p =>
      match p with
      | GenPart.functionCall fc => some fc
      | GenPart.text _ => none))).flatten

/-- Python truthiness of a `str | None`: None and the empty string are
falsy. -/
def strOptTruthy : Option String → Bool
  | none => false
  | some s => !(s == "")

/-- The contextual-argument injection of the agent.py loop body: add
`regimentId` (then `userId`) when the context value is truthy and the model
did not supply the key. The tool schema is not consulted. -/
def injectArgs (regimentId userId : Option String) (args : List (String × JVal)) : List (String × JVal) :=
  let a1 := if strOptTruthy regimentId && !(hasKey args "regimentId")
            then dictSet args "regimentId" (JVal.str (regimentId.getD ""))
            else args
  if strOptTruthy userId && !(hasKey a1 "userId")
  then dictSet a1 "userId" (JVal.str (userId.getD ""))
  else a1

/-- A message sent to the model: the initial user message, or the batched
function responses of one loop pass (as (tool name, result string) pairs,
the payload of each genai FunctionResponse). -/
inductive SentMessage where
  | userMsg (m : String)
  | toolResults (batch : List (String × String))

/-- Observable actions of one orchestration run, in order: outbound model
requests and tool executions. -/
inductive AgentEvent where
  | sendModel (m : SentMessage)
  | execTool (name : String) (args : List (String × JVal)) (result : String)

/-- Whether an event is an outbound model request. -/
def isSendEvent : AgentEvent → Bool
  | .sendModel _ => true
  | .execTool _ _ _ => false

/-- Whether an event is a tool execution. -/
def isExecEvent : AgentEvent → Bool
  | .sendModel _ => false
  | .execTool _ _ _ => true

/-- Number of outbound model requests in a trace. -/
def countModelSends (tr : List AgentEvent) : Nat :=
  (tr.filter isSendEvent).length

/-- The mutable state of the agent.py while loop: current response,
iteration counter, tools_called accumulator, plus the number of model
requests issued so far and the event trace (observables of the run). -/
structure RunState where
  response : ModelResponse
  iterations : Nat
  toolsCalled : List String
  requests : Nat
  trace : List AgentEvent

/-- agent.py: `max_iterations = 5`. -/
def max_iterations : Nat := 5

/-- The body of the agent.py while loop, entered when the current response
contains function calls: executes every call (with contextual injection),
appends their names to tools_called, increments the iteration counter, and
sends the whole batch of function responses back to the model in a single
follow-up request (`session` maps the index of an outbound request to the
model response it returns; `exec` is `execute_function_call`). -/
def loopBody (session : Nat → ModelResponse) (exec : String → List (String × JVal) → String)
    (regimentId userId : Option String) (st : RunState) : RunState :=
  let fcs := responseFunctionCalls st.response
  { response := session st.requests
    iterations := st.iterations + 1
    toolsCalled := st.toolsCalled ++ fcs.map FunctionCall.name
    requests := st.requests + 1
    trace := st.trace
      ++ fcs.map (fun c =>
           AgentEvent.execTool c.name (injectArgs regimentId userId c.args)
             (exec c.name (injectArgs regimentId userId c.args)))
      ++ [AgentEvent.sendModel (SentMessage.toolResults
           (fcs.map (fun c => (c.name, exec c.name (injectArgs regimentId userId c.args)))))] }

/-- The agent.py while loop `while iterations <= max_iterations`. The fuel
argument only bounds the recursion; it is instantiated large enough
(`max_iterations + 1`) that the loop always exits through its own guards,
never by fuel exhaustion. -/
def loopAux (session : Nat → ModelResponse) (exec : String → List (String × JVal) → String)
    (regimentId userId : Option String) : Nat → RunState → RunState
  | 0, st => st
  | fuel + 1, st =>
    if st.iterations ≤ max_iterations then
      if (responseFunctionCalls st.response).isEmpty then st
      else loopAux session exec regimentId userId fuel
             (loopBody session exec regimentId userId st)
    else st

/-- agent.py: the seed chat history handed to `model.start_chat` — the
system-instruction pair, then (when a truthy conversation history is
given) the context-framing pair followed by the prior turns verbatim. -/
def buildChatHistory (systemPrompt : String)
    (conversationHistory : Option (List (String × String))) : List (String × String) :=
  [("user", "System instructions: " ++ systemPrompt),
   ("model", "Understood. I\x27m ready to help with regiment logistics.")]
  ++ (match conversationHistory with
      | none => []
      | some h =>
        if h.isEmpty then []
        else
          [("user", "Here is the recent conversation for context. This is ONLY for understanding references like \x27the first one\x27 or \x27yes\x27. The data in these messages may be stale — you MUST still call tools to get current data for every new question."),
           ("model", "Understood. I\x27ll use this history only for conversational context and will always call tools for fresh data.")]
          ++ h)

/-- The whole orchestration loop of agent.py `process_with_ai`, as a state
transformer: seed the chat with the built history, send the user message
(the first outbound request), then run the while loop. `session` abstracts
the gemini chat session: given the seed history it maps the index of an
outbound request to the response the model returns for it. -/
def runAgentLoop (session : List (String × String) → Nat → ModelResponse)
    (exec : String → List (String × JVal) → String)
    (userMessage systemPrompt : String) (regimentId userId : Option String)
    (conversationHistory : Option (List (String × String))) : RunState :=
  loopAux (session (buildChatHistory systemPrompt conversationHistory)) exec
    regimentId userId (max_iterations + 1)
    { response := session (buildChatHistory systemPrompt conversationHistory) 0
      iterations := 1
      toolsCalled := []
      requests := 1
      trace := [AgentEvent.sendModel (SentMessage.userMsg userMessage)] }

/-- agent.py: the fixed fallback returned when the final text is empty. -/
def fallbackMessage : String :=
  "I processed your request but couldn\x27t generate a response. Please try again."

/-- agent.py `process_with_ai`: run the loop, post-process the final
response text, and fall back to the fixed message when it is empty. -/
def process_with_ai (session : List (String × String) → Nat → ModelResponse)
    (exec : String → List (String × JVal) → String)
    (userMessage systemPrompt : String) (regimentId userId : Option String)
    (conversationHistory : Option (List (String × String))) : String :=
  let final := runAgentLoop session exec userMessage systemPrompt regimentId userId conversationHistory
  let text := strip_wrapping_code_blocks final.response.text
  if text == "" then fallbackMessage else text

/-- One gemini FunctionDeclaration of gemini.py `FUNCTION_DECLARATIONS`:
tool name, the names of the declared parameters (schema properties, in
order), and the declared required subset. -/
structure FunctionDeclaration where
  name : String
  paramNames : List String
  required : List String

/-- gemini.py `FUNCTION_DECLARATIONS` (names, parameter names, required
subsets; descriptions and value types are irrelevant here and elided). -/
def FUNCTION_DECLARATIONS : List FunctionDeclaration :=
  [⟨"get_dashboard_stats", ["regimentId"], ["regimentId"]⟩,
   ⟨"search_inventory", ["regimentId", "query", "category", "limit"], ["regimentId"]⟩,
   ⟨"get_item_locations", ["regimentId", "itemCode"], ["regimentId", "itemCode"]⟩,
   ⟨"list_stockpiles", ["regimentId", "hex"], ["regimentId"]⟩,
   ⟨"get_stockpile", ["regimentId", "stockpileId", "stockpileName"], ["regimentId"]⟩,
   ⟨"get_stockpile_minimums", ["regimentId", "stockpileId", "stockpileName"], ["regimentId"]⟩,
   ⟨"list_production_orders", ["regimentId", "status", "isMpf", "isStandingOrder", "limit"], ["regimentId"]⟩,
   ⟨"get_production_order", ["regimentId", "orderId", "shortId"], ["regimentId"]⟩,
   ⟨"list_operations", ["regimentId", "status", "limit"], ["regimentId"]⟩,
   ⟨"get_operation", ["regimentId", "operationId"], ["regimentId", "operationId"]⟩,
   ⟨"get_operation_deficit", ["regimentId", "operationId"], ["regimentId", "operationId"]⟩,
   ⟨"refresh_stockpile", ["regimentId", "stockpileId", "userId"], ["regimentId", "stockpileId", "userId"]⟩,
   ⟨"get_leaderboard", ["regimentId", "period", "limit"], ["regimentId"]⟩]

/-- One registration entry of mcp-server server.py (`self._tools[name]`):
the stored dict has keys name, description, parameters, handler; the
handler is identified opaquely. -/
structure RegisteredTool where
  name : String
  description : String
  parameters : List (String × JVal)
  handlerId : Nat

/-- server.py `McpServer.tool`: registers a tool by plain dict assignment
`self._tools[name] = ...`. There is no duplicate check and no error path:
the return type is the new registry, never an exception. -/
def McpServer.tool (tools : List (String × RegisteredTool))
    (name description : String) (parameters : List (String × JVal))
    (handlerId : Nat) : List (String × RegisteredTool) :=
  dictSet tools name ⟨name, description, parameters, handlerId⟩

/-- server.py `McpServer.call_tool`: unknown names and handler exceptions
are converted to an error content payload; a successful handler result is
returned as-is (`handler` abstracts `tool["handler"](arguments)`, with
`Except.error` for a raised exception). -/
def McpServer.call_tool (tools : List (String × RegisteredTool))
    (handler : Nat → List (String × JVal) → Except String JVal)
    (name : String) (arguments : List (String × JVal)) : JVal :=
  match dictGet tools name with
  | none =>
    JVal.obj [("content", JVal.arr [JVal.obj [("type", JVal.str "text"),
                ("text", JVal.str (dumps (JVal.obj [("error", JVal.str ("Unknown tool: " ++ name))])))]]),
              ("isError", JVal.bool true)]
  | some t =>
    match handler t.handlerId arguments with
    | Except.ok result => result
    | Except.error e =>
      JVal.obj [("content", JVal.arr [JVal.obj [("type", JVal.str "text"),
                  ("text", JVal.str (dumps (JVal.obj [("error", JVal.str e)])))]]),
                ("isError", JVal.bool true)]

/-- A tool-result function that always returns "ok" (a stand-in for
`execute_function_call` in loop-level demonstrations). -/
def constExec : String → List (String × JVal) → String := fun _ _ => "ok"

/-- The function call a stubborn model keeps requesting. -/
def stubbornCall : FunctionCall :=
  { name := "search_inventory", args := [("query", JVal.str "bmat")] }

/-- A model response that requests one search_inventory call. -/
def stubbornResponse : ModelResponse :=
  { candidates := [{ parts := [GenPart.functionCall stubbornCall] }], text := "" }

/-- A model that requests a tool call in every response, forever. -/
def stubbornSession : List (String × String) → Nat → ModelResponse :=
  fun _ _ => stubbornResponse

/-- A model that immediately answers in plain text. -/
def textOnlySession : List (String × String) → Nat → ModelResponse :=
  fun _ _ => { candidates := [{ parts := [GenPart.text "All good."] }], text := "All good." }

/-- A chat session for single-pass demonstrations. -/
def demoChat : Nat → ModelResponse :=
  fun _ => { candidates := [], text := "done" }

/-- A loop state whose current response is `stubbornResponse` (one pending
search_inventory call). -/
def demoState : RunState :=
  { response := stubbornResponse
    iterations := 1
    toolsCalled := []
    requests := 1
    trace := [AgentEvent.sendModel (SentMessage.userMsg "How many bmats do we have?")] }

/-- A get_dashboard_stats call that already carries regimentId but no
userId. -/
def dashCall : FunctionCall :=
  { name := "get_dashboard_stats", args := [("regimentId", JVal.str "42")] }

/-- A model response requesting only `dashCall`. -/
def dashResponse : ModelResponse :=
  { candidates := [{ parts := [GenPart.functionCall dashCall] }], text := "" }

/-- A loop state whose current response is `dashResponse`. -/
def dashState : RunState :=
  { response := dashResponse
    iterations := 1
    toolsCalled := []
    requests := 1
    trace := [] }

/-- An MCP response body whose text content field holds a number instead of
a string. -/
def malformedBody : JVal :=
  JVal.obj [("content", JVal.arr
    [JVal.obj [("type", JVal.str "text"), ("text", JVal.int 123)]])]

/-- A sample registered tool for registry demonstrations. -/
def sampleTool : RegisteredTool :=
  { name := "search_inventory"
    description := "Search regiment inventory"
    parameters := []
    handlerId := 1 }


/-- The per-entry update performed by `dictSet` on an existing key never
changes the entry's key. -/
theorem updateFn_fst {α : Type} (k : String) (v : α) (p : String × α) :
    (if p.1 == k then (k, v) else p).1 = p.1 := by
  by_cases hp : p.1 = k
  · simp [hp]
  · simp [hp]

/-- The per-entry update performed by `dictSet` leaves entries with other
keys untouched. -/
theorem updateFn_eq_of_ne {α : Type} (k : String) (v : α) (p : String × α) (h : ¬ p.1 = k) :
    (if p.1 == k then (k, v) else p) = p := by
  simp [h]

theorem mapFst_update {α : Type} (m : List (String × α)) (k : String) (v : α) :
    (m.map (fun p => if p.1 == k then (k, v) else p)).map Prod.fst = m.map Prod.fst := by
  induction m with
  | nil => rfl
  | cons p m ih =>
    rw [List.map_cons, List.map_cons, List.map_cons, updateFn_fst, ih]

theorem hasKey_update {α : Type} (m : List (String × α)) (k k2 : String) (v : α) :
    hasKey (m.map (fun p => if p.1 == k then (k, v) else p)) k2 = hasKey m k2 := by
  induction m with
  | nil => rfl
  | cons p m ih =>
    simp only [hasKey, List.map_cons, List.any_cons] at ih ⊢
    rw [updateFn_fst, ih]

theorem dictGet_update_ne {α : Type} (m : List (String × α)) (k k2 : String) (v : α)
    (h : ¬ k2 = k) :
    dictGet (m.map (fun p => if p.1 == k then (k, v) else p)) k2 = dictGet m k2 := by
  induction m with
  | nil => rfl
  | cons p m ih =>
    simp only [List.map_cons, dictGet, updateFn_fst]
    by_cases hq : p.1 = k2
    · have hpk : ¬ p.1 = k := by rw [hq]; exact h
      rw [updateFn_eq_of_ne k v p hpk]
      simp [hq]
    · have hbeq : ¬ ((p.1 == k2) = true) := by simpa using hq
      rw [if_neg hbeq, if_neg hbeq]
      exact ih

theorem dictGet_update_self {α : Type} (m : List (String × α)) (k : String) (v : α)
    (h : hasKey m k = true) :
    dictGet (m.map (fun p => if p.1 == k then (k, v) else p)) k = some v := by
  induction m with
  | nil => simp [hasKey] at h
  | cons p m ih =>
    by_cases hp : p.1 = k
    · simp [dictGet, hp]
    · have hm : hasKey m k = true := by simpa [hasKey, hp] using h
      have hbeq : ¬ ((p.1 == k) = true) := by simpa using hp
      rw [List.map_cons, updateFn_eq_of_ne k v p hp]
      show (if p.1 == k then some p.2 else dictGet (m.map (fun p => if p.1 == k then (k, v) else p)) k) = some v
      rw [if_neg hbeq]
      exact ih hm

theorem dictGet_none_of_hasKey_false {α : Type} (m : List (String × α)) (k : String)
    (h : hasKey m k = false) : dictGet m k = none := by
  induction m with
  | nil => rfl
  | cons p m ih =>
    have hp : ¬ p.1 = k := by
      intro he
      simp [hasKey, he] at h
    have hm : hasKey m k = false := by simpa [hasKey, hp] using h
    have hbeq : ¬ ((p.1 == k) = true) := by simpa using hp
    show (if p.1 == k then some p.2 else dictGet m k) = none
    rw [if_neg hbeq]
    exact ih hm

theorem dictGet_append {α : Type} (m l : List (String × α)) (k : String) :
    dictGet (m ++ l) k = match dictGet m k with
      | some v => some v
      | none => dictGet l k := by
  induction m with
  | nil => rfl
  | cons p m ih =>
    by_cases hp : p.1 = k
    · simp [dictGet, hp]
    · have hbeq : ¬ ((p.1 == k) = true) := by simpa using hp
      show (if p.1 == k then some p.2 else dictGet (m ++ l) k) =
        match if p.1 == k then some p.2 else dictGet m k with
          | some v => some v
          | none => dictGet l k
      rw [if_neg hbeq, if_neg hbeq]
      exact ih

theorem dictGet_dictSet_self {α : Type} (m : List (String × α)) (k : String) (v : α) :
    dictGet (dictSet m k v) k = some v := by
  unfold dictSet
  by_cases h : hasKey m k = true
  · rw [if_pos h]
    exact dictGet_update_self m k v h
  · have hf : hasKey m k = false := by simpa using h
    rw [if_neg (by simp [hf]), dictGet_append, dictGet_none_of_hasKey_false m k hf]
    simp [dictGet]

theorem dictGet_dictSet_ne {α : Type} (m : List (String × α)) (k k2 : String) (v : α)
    (h : ¬ k2 = k) : dictGet (dictSet m k v) k2 = dictGet m k2 := by
  unfold dictSet
  by_cases hm : hasKey m k = true
  · rw [if_pos hm]
    exact dictGet_update_ne m k k2 v h
  · rw [if_neg hm, dictGet_append]
    have hk : ¬ (k = k2) := fun he => h he.symm
    have h1 : dictGet [(k, v)] k2 = none := by simp [dictGet, hk]
    rw [h1]
    cases dictGet m k2 <;> rfl

theorem hasKey_append {α : Type} (m l : List (String × α)) (k : String) :
    hasKey (m ++ l) k = (hasKey m k || hasKey l k) := by
  simp [hasKey, List.any_append]

theorem hasKey_dictSet_self {α : Type} (m : List (String × α)) (k : String) (v : α) :
    hasKey (dictSet m k v) k = true := by
  unfold dictSet
  by_cases hm : hasKey m k = true
  · rw [if_pos hm, hasKey_update]
    exact hm
  · rw [if_neg hm, hasKey_append]
    simp [hasKey]

theorem hasKey_dictSet_ne {α : Type} (m : List (String × α)) (k k2 : String) (v : α)
    (h : ¬ k2 = k) : hasKey (dictSet m k v) k2 = hasKey m k2 := by
  unfold dictSet
  by_cases hm : hasKey m k = true
  · rw [if_pos hm, hasKey_update]
  · rw [if_neg hm, hasKey_append]
    have hk : ¬ (k = k2) := fun he => h he.symm
    simp [hasKey, hk]

theorem mapFst_dictSet {α : Type} (m : List (String × α)) (k : String) (v : α) :
    (dictSet m k v).map Prod.fst =
      (if hasKey m k then m.map Prod.fst else m.map Prod.fst ++ [k]) := by
  unfold dictSet
  by_cases hm : hasKey m k = true
  · rw [if_pos hm, if_pos hm, mapFst_update]
  · rw [if_neg hm, if_neg hm]
    simp

theorem hasKey_iff_mem_mapFst {α : Type} (m : List (String × α)) (k : String) :
    hasKey m k = true ↔ k ∈ m.map Prod.fst := by
  simp [hasKey, List.any_eq_true, List.mem_map, beq_iff_eq]

theorem countModelSends_append (a b : List AgentEvent) :
    countModelSends (a ++ b) = countModelSends a + countModelSends b := by
  simp [countModelSends, List.filter_append]

theorem countModelSends_map_exec {α : Type} (l : List α) (n : α → String)
    (a : α → List (String × JVal)) (r : α → String) :
    countModelSends (l.map (fun x => AgentEvent.execTool (n x) (a x) (r x))) = 0 := by
  induction l with
  | nil => rfl
  | cons x l ih =>
    simp [countModelSends, List.filter_cons, isSendEvent] at ih ⊢

theorem countModelSends_single_send (m : SentMessage) :
    countModelSends [AgentEvent.sendModel m] = 1 := rfl

/-- Invariant of the agent.py while loop: the iteration counter equals the
number of outbound model requests issued so far, that number equals the
count of send events in the trace, and the counter never exceeds
`max_iterations + 1`. -/
theorem loopAux_invariant (session : Nat → ModelResponse)
    (exec : String → List (String × JVal) → String) (rid uid : Option String) :
    ∀ (fuel : Nat) (st : RunState),
      st.requests = st.iterations →
      countModelSends st.trace = st.requests →
      st.iterations ≤ max_iterations + 1 →
      ((loopAux session exec rid uid fuel st).requests
          = (loopAux session exec rid uid fuel st).iterations
       ∧ countModelSends (loopAux session exec rid uid fuel st).trace
          = (loopAux session exec rid uid fuel st).requests
       ∧ (loopAux session exec rid uid fuel st).iterations ≤ max_iterations + 1) := by
  intro fuel
  induction fuel with
  | zero =>
    intro st h1 h2 h3
    exact ⟨h1, h2, h3⟩
  | succ n ih =>
    intro st h1 h2 h3
    rw [loopAux]
    by_cases hle : st.iterations ≤ max_iterations
    · rw [if_pos hle]
      by_cases hemp : (responseFunctionCalls st.response).isEmpty = true
      · rw [if_pos hemp]
        exact ⟨h1, h2, h3⟩
      · rw [if_neg hemp]
        apply ih
        · simp [loopBody, h1]
        · simp only [loopBody, countModelSends_append, countModelSends_map_exec,
            countModelSends_single_send, h2]
        · simp only [loopBody]
          omega
    · rw [if_neg hle]
      exact ⟨h1, h2, h3⟩

/-- C10 (confirmed): whenever the fence match fails on the trimmed text,
`strip_wrapping_code_blocks` returns its input byte-for-byte, leading and
trailing whitespace included — the non-fenced path performs no trimming. -/
theorem claimC10_nonfenced_unchanged (t : String)
    (h : fenceMatch (pyStripList t.data) = none) :
    strip_wrapping_code_blocks t = t := by
  show (match fenceMatch (pyStripList t.data) with
        | some g => String.mk (pyStripList g)
        | none => t) = t
  rw [h]

/-- Witness for claimC10_nonfenced_unchanged: a message with surrounding
whitespace and an inline code block is returned untouched. -/
theorem claimC10_witness :
    fenceMatch (pyStripList ("  see ```code``` inline  " : String).data) = none
    ∧ strip_wrapping_code_blocks "  see ```code``` inline  " = "  see ```code``` inline  " :=
  ⟨rfl, claimC10_nonfenced_unchanged "  see ```code``` inline  " rfl⟩

/-- C4, counterexample: `strip_wrapping_code_blocks` is not idempotent — a
doubly fenced message loses one fence layer per application, so applying it
twice differs from applying it once. -/
theorem claimC4_counterexample :
    strip_wrapping_code_blocks "``````x``````" = "```x```"
    ∧ strip_wrapping_code_blocks (strip_wrapping_code_blocks "``````x``````") = ""
    ∧ strip_wrapping_code_blocks (strip_wrapping_code_blocks "``````x``````")
        ≠ strip_wrapping_code_blocks "``````x``````" := by
  refine ⟨rfl, rfl, ?_⟩
  decide

/-- C4 (amended): the post-processor is a pure function, and a second
application is the identity whenever the first application's result does
not itself match the whole-message fence pattern; for doubly fenced
messages the fence match succeeds again and idempotence fails (each
application strips one fence layer). -/
theorem claimC4_conditionally_idempotent (t : String)
    (h : fenceMatch (pyStripList (strip_wrapping_code_blocks t).data) = none) :
    strip_wrapping_code_blocks (strip_wrapping_code_blocks t)
      = strip_wrapping_code_blocks t := by
  show (match fenceMatch (pyStripList (strip_wrapping_code_blocks t).data) with
        | some g => String.mk (pyStripList g)
        | none => strip_wrapping_code_blocks t) = strip_wrapping_code_blocks t
  rw [h]

/-- Witness for claimC4_conditionally_idempotent: a singly fenced message
cleans to plain text, on which a second application is the identity. -/
theorem claimC4_witness :
    fenceMatch (pyStripList (strip_wrapping_code_blocks "```py\nhi```").data) = none
    ∧ strip_wrapping_code_blocks (strip_wrapping_code_blocks "```py\nhi```")
        = strip_wrapping_code_blocks "```py\nhi```" :=
  ⟨rfl, claimC4_conditionally_idempotent "```py\nhi```" rfl⟩

/-- C7 (code bug evidence): on a 200 response whose content text field
holds the number 123 instead of a string, `execute_function_call` returns
the non-string value 123 unconverted — contradicting its declared `-> str`
contract and the claim that every call yields a string, with malformed
results encoded as error strings. -/
theorem claimC7_nonstring_return :
    execute_function_call (HttpResult.success 200 (Except.ok malformedBody))
      "get_dashboard_stats" [] = JVal.int 123
    ∧ (execute_function_call (HttpResult.success 200 (Except.ok malformedBody))
        "get_dashboard_stats" []).isStr = false :=
  ⟨rfl, rfl⟩

/-- C9, counterexample: registering get_stockpile twice raises no error and
replaces the first registration — after the second call the registry holds
the new description and handler, so the existing registration is not left
unchanged and no DuplicateToolError exists. -/
theorem claimC9_counterexample :
    (dictGet (McpServer.tool (McpServer.tool [] "get_stockpile" "original" [] 1)
        "get_stockpile" "replacement" [] 2) "get_stockpile").map RegisteredTool.description
      = some "replacement"
    ∧ (dictGet (McpServer.tool (McpServer.tool [] "get_stockpile" "original" [] 1)
        "get_stockpile" "replacement" [] 2) "get_stockpile").map RegisteredTool.handlerId
      = some 2
    ∧ ¬ ((some "replacement" : Option String) = some "original") := by
  refine ⟨rfl, rfl, ?_⟩
  decide

/-- C9 (amended): registering a tool under an already-registered name
silently replaces the existing registration (a lookup then returns the new
entry) and raises nothing; names stay unique — re-registration leaves the
key list unchanged, so a registry whose names are distinct keeps them
distinct. -/
theorem claimC9_register_overwrites (tools : List (String × RegisteredTool))
    (n d : String) (p : List (String × JVal)) (hid : Nat)
    (hnd : (tools.map Prod.fst).Nodup) :
    dictGet (McpServer.tool tools n d p hid) n = some ⟨n, d, p, hid⟩
    ∧ ((McpServer.tool tools n d p hid).map Prod.fst).Nodup := by
  constructor
  · exact dictGet_dictSet_self tools n ⟨n, d, p, hid⟩
  · unfold McpServer.tool
    rw [mapFst_dictSet]
    by_cases hk : hasKey tools n = true
    · rw [if_pos hk]
      exact hnd
    · rw [if_neg hk]
      have hnm : n ∉ tools.map Prod.fst := by
        intro hmem
        exact hk ((hasKey_iff_mem_mapFst tools n).mpr hmem)
      simp [List.nodup_append, hnd, hnm]

/-- Witness for claimC9_register_overwrites on a one-entry registry. -/
theorem claimC9_witness :
    (([("search_inventory", sampleTool)] : List (String × RegisteredTool)).map Prod.fst).Nodup
    ∧ (dictGet (McpServer.tool [("search_inventory", sampleTool)]
          "get_stockpile" "Get stockpile detail" [] 7) "get_stockpile"
        = some ⟨"get_stockpile", "Get stockpile detail", [], 7⟩
       ∧ ((McpServer.tool [("search_inventory", sampleTool)]
            "get_stockpile" "Get stockpile detail" [] 7).map Prod.fst).Nodup) :=
  ⟨by decide, claimC9_register_overwrites [("search_inventory", sampleTool)]
    "get_stockpile" "Get stockpile detail" [] 7 (by decide)⟩

/-- C5 (confirmed): contextual injection never overwrites a model-supplied
argument — any key already present in the raw argument bag (in particular
regimentId and userId) still maps to its original value after injection,
whatever ambient context values are available. -/
theorem claimC5_no_overwrite (rid uid : Option String) (args : List (String × JVal))
    (k : String) (h : hasKey args k = true) :
    dictGet (injectArgs rid uid args) k = dictGet args k := by
  have step : ∀ (m : List (String × JVal)) (k2 : String) (v : JVal) (b : Bool),
      hasKey m k = true →
      (dictGet (if b && !(hasKey m k2) then dictSet m k2 v else m) k = dictGet m k
       ∧ hasKey (if b && !(hasKey m k2) then dictSet m k2 v else m) k = true) := by
    intro m k2 v b hm
    by_cases hc : (b && !(hasKey m k2)) = true
    · have h2 : (!(hasKey m k2)) = true := by
        have := hc
        simp only [Bool.and_eq_true] at this
        exact this.2
      have hk2 : hasKey m k2 = false := by simpa using h2
      have hkne : ¬ k = k2 := by
        intro he
        rw [he] at hm
        rw [hm] at hk2
        exact Bool.noConfusion hk2
      rw [if_pos hc]
      refine ⟨dictGet_dictSet_ne m k2 k v hkne, ?_⟩
      rw [hasKey_dictSet_ne m k2 k v hkne]
      exact hm
    · rw [if_neg hc]
      exact ⟨rfl, hm⟩
  have s1 := step args "regimentId" (JVal.str (rid.getD "")) (strOptTruthy rid) h
  have s2 := step (if strOptTruthy rid && !(hasKey args "regimentId")
        then dictSet args "regimentId" (JVal.str (rid.getD "")) else args)
      "userId" (JVal.str (uid.getD "")) (strOptTruthy uid) s1.2
  show dictGet (if strOptTruthy uid && !(hasKey (if strOptTruthy rid && !(hasKey args "regimentId")
        then dictSet args "regimentId" (JVal.str (rid.getD "")) else args) "userId")
      then dictSet (if strOptTruthy rid && !(hasKey args "regimentId")
        then dictSet args "regimentId" (JVal.str (rid.getD "")) else args) "userId" (JVal.str (uid.getD ""))
      else (if strOptTruthy rid && !(hasKey args "regimentId")
        then dictSet args "regimentId" (JVal.str (rid.getD "")) else args)) k = dictGet args k
  rw [s2.1, s1.1]

/-- Witness for claimC5_no_overwrite: a model-supplied regimentId of "X"
survives injection against an ambient regimentId of "Y". -/
theorem claimC5_witness :
    hasKey [("regimentId", JVal.str "X")] "regimentId" = true
    ∧ dictGet (injectArgs (some "Y") (some "777") [("regimentId", JVal.str "X")]) "regimentId"
        = dictGet [("regimentId", JVal.str "X")] "regimentId"
    ∧ dictGet (injectArgs (some "Y") (some "777") [("regimentId", JVal.str "X")]) "regimentId"
        = some (JVal.str "X") :=
  ⟨rfl, claimC5_no_overwrite (some "Y") (some "777") [("regimentId", JVal.str "X")] "regimentId" rfl, rfl⟩

/-- C1, counterexample: against a model that requests a tool call in every
response, one run issues 6 outbound model requests (the initial send plus
five batched tool-result sends), exceeding the claimed ceiling of
`max_iterations = 5` total requests. -/
theorem claimC1_counterexample :
    countModelSends (runAgentLoop stubbornSession constExec "How many bmats do we have?"
      "prompt" (some "42") (some "7") none).trace = 6
    ∧ ¬ ((6 : Nat) ≤ max_iterations) := by
  refine ⟨rfl, ?_⟩
  decide

/-- C1 (amended): for every model behaviour, tool executor and inputs, one
`process_with_ai` run issues at most `max_iterations + 1` outbound model
requests — the initial user-message send plus at most `max_iterations`
batched tool-result sends; once the while guard fails no further request is
made and the loop ends with the last response's text. -/
theorem claimC1_request_bound (session : List (String × String) → Nat → ModelResponse)
    (exec : String → List (String × JVal) → String) (msg sp : String)
    (rid uid : Option String) (hist : Option (List (String × String))) :
    countModelSends (runAgentLoop session exec msg sp rid uid hist).trace
      ≤ max_iterations + 1 := by
  have h := loopAux_invariant (session (buildChatHistory sp hist)) exec rid uid
    (max_iterations + 1)
    { response := session (buildChatHistory sp hist) 0
      iterations := 1
      toolsCalled := []
      requests := 1
      trace := [AgentEvent.sendModel (SentMessage.userMsg msg)] }
    rfl rfl (by show (1 : Nat) ≤ max_iterations + 1; decide)
  rcases h with ⟨h1, h2, h3⟩
  show countModelSends (loopAux (session (buildChatHistory sp hist)) exec rid uid
    (max_iterations + 1)
    { response := session (buildChatHistory sp hist) 0
      iterations := 1
      toolsCalled := []
      requests := 1
      trace := [AgentEvent.sendModel (SentMessage.userMsg msg)] }).trace ≤ max_iterations + 1
  rw [h2, h1]
  exact h3

/-- The final step of process_with_ai over an arbitrary post-processed
text: the result is non-empty and is either the text or the fallback. -/
theorem emptyFallback_ite (t : String) :
    (if t == "" then fallbackMessage else t) ≠ ""
    ∧ ((if t == "" then fallbackMessage else t) = t
       ∨ (if t == "" then fallbackMessage else t) = fallbackMessage) := by
  by_cases h : t = ""
  · rw [if_pos (by simp [h])]
    exact ⟨by decide, Or.inr rfl⟩
  · rw [if_neg (by simpa using h)]
    exact ⟨h, Or.inl rfl⟩

/-- C3 (confirmed): `process_with_ai` always returns a non-empty string:
it returns either the post-processed final model text (when that is
non-empty) or the fixed non-empty fallback message. -/
theorem claimC3_nonempty_reply (session : List (String × String) → Nat → ModelResponse)
    (exec : String → List (String × JVal) → String) (msg sp : String)
    (rid uid : Option String) (hist : Option (List (String × String))) :
    process_with_ai session exec msg sp rid uid hist ≠ ""
    ∧ (process_with_ai session exec msg sp rid uid hist
         = strip_wrapping_code_blocks (runAgentLoop session exec msg sp rid uid hist).response.text
       ∨ process_with_ai session exec msg sp rid uid hist = fallbackMessage) :=
  emptyFallback_ite
    (strip_wrapping_code_blocks (runAgentLoop session exec msg sp rid uid hist).response.text)

/-- C8 (confirmed): when the first model response to the user message
contains zero tool-call requests, the loop terminates with iteration count
1, records no invoked tools, and the trace holds no tool execution. -/
theorem claimC8_no_tools_single_pass (session : List (String × String) → Nat → ModelResponse)
    (exec : String → List (String × JVal) → String) (msg sp : String)
    (rid uid : Option String) (hist : Option (List (String × String)))
    (h : responseFunctionCalls (session (buildChatHistory sp hist) 0) = []) :
    (runAgentLoop session exec msg sp rid uid hist).iterations = 1
    ∧ (runAgentLoop session exec msg sp rid uid hist).toolsCalled = []
    ∧ (runAgentLoop session exec msg sp rid uid hist).trace.filter isExecEvent = [] := by
  refine ⟨?_, ?_, ?_⟩ <;>
    simp [runAgentLoop, loopAux, h, max_iterations, List.filter, isExecEvent]

/-- Witness for claimC8_no_tools_single_pass with a model that answers in
plain text at once. -/
theorem claimC8_witness :
    responseFunctionCalls (textOnlySession (buildChatHistory "sp" none) 0) = []
    ∧ ((runAgentLoop textOnlySession constExec "hello" "sp" (some "42") none none).iterations = 1
       ∧ (runAgentLoop textOnlySession constExec "hello" "sp" (some "42") none none).toolsCalled = []
       ∧ (runAgentLoop textOnlySession constExec "hello" "sp" (some "42") none none).trace.filter isExecEvent = []) :=
  ⟨rfl, claimC8_no_tools_single_pass textOnlySession constExec "hello" "sp" (some "42") none none rfl⟩

/-- C2 (confirmed): when the current model response holds N ≥ 1 tool-call
requests and the iteration ceiling has not been passed, the while loop
dispatches to exactly one pass (`loopBody`), in which every one of the N
requests is resolved to exactly one string result, the iteration counter
grows by exactly one, and the trace extends by the N tool executions
followed by one single model request carrying the batch of all N results —
no further model request happens before that batch is sent. -/
theorem claimC2_batched_results (session : Nat → ModelResponse)
    (exec : String → List (String × JVal) → String) (rid uid : Option String)
    (st : RunState) (fuel : Nat)
    (hne : responseFunctionCalls st.response ≠ [])
    (hit : st.iterations ≤ max_iterations) :
    (loopBody session exec rid uid st).iterations = st.iterations + 1
    ∧ (loopBody session exec rid uid st).toolsCalled
        = st.toolsCalled ++ (responseFunctionCalls st.response).map FunctionCall.name
    ∧ (loopBody session exec rid uid st).trace
        = st.trace
          ++ (responseFunctionCalls st.response).map (fun c =>
               AgentEvent.execTool c.name (injectArgs rid uid c.args)
                 (exec c.name (injectArgs rid uid c.args)))
          ++ [AgentEvent.sendModel (SentMessage.toolResults
               ((responseFunctionCalls st.response).map (fun c =>
                 (c.name, exec c.name (injectArgs rid uid c.args)))))]
    ∧ ((responseFunctionCalls st.response).map (fun c =>
         (c.name, exec c.name (injectArgs rid uid c.args)))).length
        = (responseFunctionCalls st.response).length
    ∧ loopAux session exec rid uid (fuel + 1) st
        = loopAux session exec rid uid fuel (loopBody session exec rid uid st) := by
  have hemp : (responseFunctionCalls st.response).isEmpty = false := by
    cases hq : responseFunctionCalls st.response with
    | nil => exact absurd hq hne
    | cons a l => rfl
  refine ⟨rfl, rfl, rfl, by simp, ?_⟩
  rw [loopAux, if_pos hit, hemp]
  simp

/-- Witness for claimC2_batched_results at a one-call state. -/
theorem claimC2_witness :
    responseFunctionCalls demoState.response ≠ []
    ∧ demoState.iterations ≤ max_iterations
    ∧ ((loopBody demoChat constExec (some "42") (some "7") demoState).iterations
          = demoState.iterations + 1
       ∧ (loopBody demoChat constExec (some "42") (some "7") demoState).toolsCalled
          = demoState.toolsCalled ++ (responseFunctionCalls demoState.response).map FunctionCall.name
       ∧ (loopBody demoChat constExec (some "42") (some "7") demoState).trace
          = demoState.trace
            ++ (responseFunctionCalls demoState.response).map (fun c =>
                 AgentEvent.execTool c.name (injectArgs (some "42") (some "7") c.args)
                   (constExec c.name (injectArgs (some "42") (some "7") c.args)))
            ++ [AgentEvent.sendModel (SentMessage.toolResults
                 ((responseFunctionCalls demoState.response).map (fun c =>
                   (c.name, constExec c.name (injectArgs (some "42") (some "7") c.args)))))]
       ∧ ((responseFunctionCalls demoState.response).map (fun c =>
            (c.name, constExec c.name (injectArgs (some "42") (some "7") c.args)))).length
          = (responseFunctionCalls demoState.response).length
       ∧ loopAux demoChat constExec (some "42") (some "7") (3 + 1) demoState
          = loopAux demoChat constExec (some "42") (some "7") 3
              (loopBody demoChat constExec (some "42") (some "7") demoState)) := by
  have h1 : responseFunctionCalls demoState.response ≠ [] := by
    intro h
    exact List.noConfusion h
  have h2 : demoState.iterations ≤ max_iterations := by decide
  exact ⟨h1, h2, claimC2_batched_results demoChat constExec (some "42") (some "7") demoState 3 h1 h2⟩

/-- C6, counterexample: the declared schema of get_dashboard_stats has no
userId parameter, yet a loop pass over a get_dashboard_stats call with a
truthy ambient userId dispatches arguments containing the injected userId
key — injection never consults the declared schema. -/
theorem claimC6_counterexample :
    FUNCTION_DECLARATIONS.find? (fun d => d.name == "get_dashboard_stats")
      = some { name := "get_dashboard_stats", paramNames := ["regimentId"], required := ["regimentId"] }
    ∧ (["regimentId"] : List String).contains "userId" = false
    ∧ (loopBody demoChat constExec (some "42") (some "777") dashState).trace
        = [AgentEvent.execTool "get_dashboard_stats"
             [("regimentId", JVal.str "42"), ("userId", JVal.str "777")] "ok",
           AgentEvent.sendModel (SentMessage.toolResults [("get_dashboard_stats", "ok")])]
    ∧ hasKey (injectArgs (some "42") (some "777") dashCall.args) "userId" = true :=
  ⟨rfl, rfl, rfl, rfl⟩

/-- C6 (amended): regimentId and userId are injected into the dispatched
arguments exactly when the ambient context value is truthy and the model
omitted the key — for every tool call alike, regardless of the declared
parameter schema, which the injection code never consults. -/
theorem claimC6_injection_ignores_schema (rid uid : Option String)
    (args : List (String × JVal)) :
    hasKey (injectArgs rid uid args) "regimentId"
      = (hasKey args "regimentId" || strOptTruthy rid)
    ∧ hasKey (injectArgs rid uid args) "userId"
      = (hasKey args "userId" || strOptTruthy uid) := by
  have hne : ¬ ("userId" : String) = "regimentId" := by decide
  have hne2 : ¬ ("regimentId" : String) = "userId" := by decide
  have hstep2 : ∀ (m : List (String × JVal)),
      hasKey (if strOptTruthy uid && !(hasKey m "userId")
          then dictSet m "userId" (JVal.str (uid.getD "")) else m) "regimentId"
        = hasKey m "regimentId" := by
    intro m
    by_cases c : (strOptTruthy uid && !(hasKey m "userId")) = true
    · rw [if_pos c, hasKey_dictSet_ne m "userId" "regimentId" _ hne2]
    · rw [if_neg c]
  have hA1 : hasKey (if strOptTruthy rid && !(hasKey args "regimentId")
      then dictSet args "regimentId" (JVal.str (rid.getD "")) else args) "userId"
        = hasKey args "userId" := by
    by_cases c : (strOptTruthy rid && !(hasKey args "regimentId")) = true
    · rw [if_pos c, hasKey_dictSet_ne args "regimentId" "userId" _ hne]
    · rw [if_neg c]
  constructor
  · show hasKey (if strOptTruthy uid && !(hasKey (if strOptTruthy rid && !(hasKey args "regimentId")
        then dictSet args "regimentId" (JVal.str (rid.getD "")) else args) "userId")
      then dictSet (if strOptTruthy rid && !(hasKey args "regimentId")
        then dictSet args "regimentId" (JVal.str (rid.getD "")) else args) "userId" (JVal.str (uid.getD ""))
      else (if strOptTruthy rid && !(hasKey args "regimentId")
        then dictSet args "regimentId" (JVal.str (rid.getD "")) else args)) "regimentId"
      = (hasKey args "regimentId" || strOptTruthy rid)
    rw [hstep2]
    by_cases c1 : (strOptTruthy rid && !(hasKey args "regimentId")) = true
    · have hparts := c1
      simp only [Bool.and_eq_true] at hparts
      have hrk : hasKey args "regimentId" = false := by simpa using hparts.2
      rw [if_pos c1, hasKey_dictSet_self, hrk, hparts.1]
      rfl
    · rw [if_neg c1]
      cases hsb : strOptTruthy rid with
      | false => rw [Bool.or_false]
      | true =>
        have hk : hasKey args "regimentId" = true := by
          by_contra hk
          apply c1
          simp [hsb, (by simpa using hk : hasKey args "regimentId" = false)]
        rw [hk, Bool.true_or]
  · show hasKey (if strOptTruthy uid && !(hasKey (if strOptTruthy rid && !(hasKey args "regimentId")
        then dictSet args "regimentId" (JVal.str (rid.getD "")) else args) "userId")
      then dictSet (if strOptTruthy rid && !(hasKey args "regimentId")
        then dictSet args "regimentId" (JVal.str (rid.getD "")) else args) "userId" (JVal.str (uid.getD ""))
      else (if strOptTruthy rid && !(hasKey args "regimentId")
        then dictSet args "regimentId" (JVal.str (rid.getD "")) else args)) "userId"
      = (hasKey args "userId" || strOptTruthy uid)
    by_cases c2 : (strOptTruthy uid && !(hasKey (if strOptTruthy rid && !(hasKey args "regimentId")
        then dictSet args "regimentId" (JVal.str (rid.getD "")) else args) "userId")) = true
    · have hparts := c2
      simp only [Bool.and_eq_true] at hparts
      have huk : hasKey (if strOptTruthy rid && !(hasKey args "regimentId")
          then dictSet args "regimentId" (JVal.str (rid.getD "")) else args) "userId" = false := by
        simpa using hparts.2
      rw [if_pos c2, hasKey_dictSet_self, hA1.symm.trans huk, hparts.1]
      rfl
    · rw [if_neg c2, hA1]
      cases hsb : strOptTruthy uid with
      | false => rw [Bool.or_false]
      | true =>
        have hk : hasKey args "userId" = true := by
          by_contra hk
          apply c2
          have hfalse : hasKey (if strOptTruthy rid && !(hasKey args "regimentId")
              then dictSet args "regimentId" (JVal.str (rid.getD "")) else args) "userId" = false := by
            rw [hA1]
            simpa using hk
          rw [hsb, hfalse]
          rfl
        rw [hk, Bool.true_or]
